import Mathlib

/-!
Shallow embedding of the streaming-analytics core of the two Kafka
consumers in this repository:

* `src/consumers/csv_consumer_mcruz.py` — temperature stream: rolling
  stall detection (`detect_stall`) plus per-continent running averages.
* `src/consumers/json_consumer_mcruz.py` — WNBA player stream: rolling
  hot-streak detection (`detect_hot_streak`).

Modelling choices, stated once here:

* Python floats are embedded as `ℚ` (exact arithmetic).  For every
  concrete example appearing in the claims the boolean outcome under
  IEEE-754 doubles agrees with the exact-rational outcome, so the
  embedding is faithful on those inputs.
* JSON field values that matter to the code are numbers and strings, so
  the value universe is `JsonVal` (numbers and strings); a field that is
  JSON `null` or absent is `Option.none`, matching the fact that
  `dict.get` returns `None` in both cases.
* A Python `deque(maxlen=N)` of values is a `List JsonVal` (oldest
  first); `push` is `deque.append`.
* The `defaultdict(lambda: \x7b"count": 0, "sum_temp": 0.0\x7d)` of the csv
  consumer is a total function `JsonVal → ℕ × ℚ` whose default value is
  `(0, 0)`; a key is "unseen" exactly when it is still mapped to the
  default, so lazy creation of the default entry is a no-op.
* Operations that can raise a Python exception return `Option`/are
  modelled branch-by-branch: `process_message` wraps its whole body in
  `except Exception`, so an exception aborts the rest of the body but
  keeps every in-place mutation already performed; the model threads the
  partially-mutated state out at those points.
* A `logger.error`/`logger.info` line that the spec designates as an
  event (`Invalid`, `STALL DETECTED`, `HOT STREAK`, `[Continent Avg]`)
  is an `Event`; the per-message event list is returned in emission
  order.
-/

/-- JSON scalar values that can reach the processing code: numbers
(embedded as exact rationals) and strings. -/
inductive JsonVal where
  | num (q : ℚ)
  | str (s : String)
deriving DecidableEq

/-- Python truthiness of a field value, as used by `if continent:` in the
csv consumer: `0` and the empty string are falsy, everything else truthy. -/
def JsonVal.truthy : JsonVal → Bool
  | .num q => decide (q ≠ 0)
  | .str s => decide (s ≠ "")

/-- Extract the underlying rationals of a window when every element is
numeric, and `none` otherwise.  `none` marks the windows on which the
Python numeric code raises `TypeError`: with mixed contents `max`/`min`
raise on the first cross-type comparison, and with all-string contents
the subtraction `max - min` (resp. the running `sum` starting from `0`)
raises instead — either way the surrounding `except Exception` catches. -/
def toNums : List JsonVal → Option (List ℚ)
  | [] => some []
  | .num q :: rest => (toNums rest).map (fun l => q :: l)
  | .str _ :: _ => none

/-- One `append` on a Python `deque(maxlen=N)`: the value is added at the
right and, if the length would exceed `N`, the oldest (leftmost) entries
are evicted. -/
def push (N : ℕ) (w : List α) (x : α) : List α :=
  if (w ++ [x]).length ≤ N then w ++ [x]
  else (w ++ [x]).drop ((w ++ [x]).length - N)

/-- Events observable per processed message (the log lines the spec
promotes to events).  `continentAvg` carries the average and the divisor
count actually used by the division that produced it. -/
inductive Event where
  | invalid
  | stallDetected
  | hotStreakDetected
  | continentAvg (avg : ℚ) (count : ℕ)
deriving DecidableEq

/-- `detect_stall` of `csv_consumer_mcruz.py` (lines 68–79): returns
`False` while the window holds fewer than `N` readings, otherwise
compares `max(window) - min(window)` against the stall threshold.
`some b` is a normal boolean return; `none` is a raised `TypeError`
(non-numeric window contents) or `ValueError` (`max` of an empty window,
reachable only when `N = 0`).  Python's `max`/`min` fold left over the
elements, hence the `foldl` over the head and tail. -/
def detect_stall (N : ℕ) (T : ℚ) (w : List JsonVal) : Option Bool :=
  if w.length < N then some false
  else
    match toNums w with
    | some (h :: t) => some (decide (t.foldl max h - t.foldl min h ≤ T))
    | some [] => none
    | none => none

/-- `detect_hot_streak` of `json_consumer_mcruz.py` (lines 73–84):
returns `False` on an empty window (`if not rolling_window`), otherwise
compares `sum(window) / len(window)` against the hot-streak threshold.
`none` is the `TypeError` raised by `sum` when the window holds a
non-numeric value. -/
def detect_hot_streak (T : ℚ) (w : List JsonVal) : Option Bool :=
  if w.isEmpty then some false
  else
    match toNums w with
    | some l => some (decide (T ≤ l.sum / (l.length : ℚ)))
    | none => none

/-- The hot-streak check actually performed per message by
`json_consumer_mcruz.py` lines 114–115: the caller gates
`detect_hot_streak` behind `len(rolling_window) == window_size`, so the
alert condition is "window full AND detect_hot_streak returned True". -/
def hot_streak_fires (N : ℕ) (T : ℚ) (w : List JsonVal) : Bool :=
  w.length == N && (detect_hot_streak T w == some true)

/-- The continent-aggregation update of `csv_consumer_mcruz.py` lines
113–115 on the `defaultdict` state: `stats["count"] += 1` and
`stats["sum_temp"] += value` at `key`, all other keys untouched.  An
unseen key reads as the default `(0, 0)` before the update. -/
def aggRecord (stats : JsonVal → ℕ × ℚ) (key : JsonVal) (v : ℚ) :
    JsonVal → ℕ × ℚ :=
  fun k => if k = key then ((stats key).1 + 1, (stats key).2 + v) else stats k

/-- The average computed at `csv_consumer_mcruz.py` line 116:
`stats["sum_temp"] / stats["count"]`. -/
def aggAverage (stats : JsonVal → ℕ × ℚ) (key : JsonVal) : ℚ :=
  (stats key).2 / ((stats key).1 : ℚ)

/-- A decoded record as seen by the csv consumer's `process_message`:
the four fields it reads via `data.get`, each `none` when absent or JSON
null.  `city` is read but never used. -/
structure CsvRecord where
  temperature : Option JsonVal
  timestamp : Option JsonVal
  city : Option JsonVal
  continent : Option JsonVal

/-- The mutable state owned by the csv consumer's `main`: the rolling
window deque and the per-continent `defaultdict`. -/
structure CsvState where
  window : List JsonVal
  stats : JsonVal → ℕ × ℚ

/-- `process_message` of `csv_consumer_mcruz.py` (lines 87–125), after
JSON decoding: validate (`temperature is None or timestamp is None` →
log `Invalid`, no mutation), append to the rolling window, run
`detect_stall` (a raise inside it is caught after the append, skipping
the rest), log the stall alert when stalled, and — when `continent` is
truthy — run the aggregation update and log the continent average.  A
string temperature makes `stats["sum_temp"] += temperature` raise after
the count increment, so in that branch the count is mutated but the sum
is not and no average is logged. -/
def csvProcessMessage (N : ℕ) (T : ℚ) (r : CsvRecord) (s : CsvState) :
    CsvState × List Event :=
  match r.temperature, r.timestamp with
  | some temp, some _ =>
    let w2 := push N s.window temp
    match detect_stall N T w2 with
    | none => (⟨w2, s.stats⟩, [])
    | some stalled =>
      let evs := if stalled then [Event.stallDetected] else []
      match r.continent with
      | some ckey =>
        if ckey.truthy then
          match temp with
          | JsonVal.num q =>
            let stats2 := aggRecord s.stats ckey q
            (⟨w2, stats2⟩,
              evs ++ [Event.continentAvg (aggAverage stats2 ckey) (stats2 ckey).1])
          | JsonVal.str _ =>
            (⟨w2, fun k => if k = ckey then ((s.stats ckey).1 + 1, (s.stats ckey).2)
                           else s.stats k⟩, evs)
        else (⟨w2, s.stats⟩, evs)
      | none => (⟨w2, s.stats⟩, evs)
  | _, _ => (s, [Event.invalid])

/-- A decoded record as seen by the json consumer's `process_message`:
the four fields it reads via `data.get`. -/
structure JsonRecord where
  player : Option JsonVal
  team : Option JsonVal
  ppg : Option JsonVal
  timestamp : Option JsonVal

/-- `process_message` of `json_consumer_mcruz.py` (lines 91–124), after
JSON decoding: validate (`player is None or ppg is None or timestamp is
None` → log `Invalid`, no mutation), append `ppg` to the rolling window,
and only when the window is full run `detect_hot_streak`, logging the
hot-streak alert when it returns `True` (a raise inside it is caught
after the append). -/
def jsonProcessMessage (N : ℕ) (T : ℚ) (r : JsonRecord) (w : List JsonVal) :
    List JsonVal × List Event :=
  match r.player, r.ppg, r.timestamp with
  | some _, some ppg, some _ =>
    let w2 := push N w ppg
    if w2.length = N then
      match detect_hot_streak T w2 with
      | some true => (w2, [Event.hotStreakDetected])
      | _ => (w2, [])
    else (w2, [])
  | _, _, _ => (w, [Event.invalid])

/-! ## Helper lemmas -/

/-- A `push` always keeps exactly the suffix of length at most `N` of the
appended list: the `if` in `push` only avoids a redundant `drop 0`. -/
lemma push_eq_drop (N : ℕ) (w : List α) (x : α) :
    push N w x = (w ++ [x]).drop ((w ++ [x]).length - N) := by
  unfold push
  by_cases h : (w ++ [x]).length ≤ N
  · rw [if_pos h, Nat.sub_eq_zero_of_le h, List.drop_zero]
  · rw [if_neg h]

/-- Folding `push` over a whole input sequence leaves exactly the last
`min N (length)` values, i.e. the suffix obtained by dropping
`length − N` elements. -/
lemma foldl_push (N : ℕ) (s : List α) :
    List.foldl (push N) [] s = s.drop (s.length - N) := by
  induction s using List.reverseRecOn with
  | nil => simp
  | append_singleton s x IH =>
    have hk : s.length - N ≤ s.length := Nat.sub_le _ _
    rw [List.foldl_append, List.foldl_cons, List.foldl_nil, IH, push_eq_drop,
      ← List.drop_append_of_le_length hk, List.drop_drop]
    congr 1
    simp only [List.length_drop, List.length_append, List.length_cons,
      List.length_nil]
    omega

/-- An all-numeric window extracts to its underlying rationals. -/
lemma toNums_map_num (l : List ℚ) : toNums (l.map JsonVal.num) = some l := by
  induction l with
  | nil => rfl
  | cons h t IH => simp [toNums, IH]

/-- A window containing any string value fails numeric extraction (the
Python numeric code raises on it). -/
lemma toNums_eq_none_of_mem_str (w : List JsonVal) (v : String)
    (hv : JsonVal.str v ∈ w) : toNums w = none := by
  induction w with
  | nil => cases hv
  | cons a rest IH =>
    cases a with
    | num q =>
      cases hv with
      | tail _ h => simp [toNums, IH h]
    | str s2 => rfl

/-! ## Claim theorems -/

/-- C3: for every sequence of values pushed into a sliding window of
positive capacity `N`, after each push the window holds exactly the last
`min(N, pushes so far)` values in arrival order (the suffix of the pushed
sequence), its length never exceeds `N`, and a push onto a full window
evicts exactly the oldest value. -/
theorem sliding_window_fifo (N : ℕ) (hN : 0 < N) :
    (∀ s : List JsonVal,
        List.foldl (push N) [] s = s.drop (s.length - N) ∧
        (List.foldl (push N) [] s).length = min N s.length) ∧
    (∀ (w : List JsonVal) (x : JsonVal), w.length = N →
        push N w x = w.tail ++ [x]) := by
  refine ⟨fun s => ⟨foldl_push N s, ?_⟩, fun w x hw => ?_⟩
  · rw [foldl_push, List.length_drop]
    omega
  · have h1 : (1 : ℕ) ≤ w.length := by omega
    have hidx : (w ++ [x]).length - N = 1 := by
      simp only [List.length_append, List.length_cons, List.length_nil]
      omega
    rw [push_eq_drop, hidx, List.drop_append_of_le_length h1, List.drop_one]

/-- Witness for C3 at capacity 2 with three pushes: the window ends as the
last two values, and a push on the full window `[1, 2]` evicts the `1`. -/
theorem sliding_window_fifo_witness :
    List.foldl (push 2) [] [JsonVal.num 1, JsonVal.num 2, JsonVal.num 3] =
      [JsonVal.num 2, JsonVal.num 3] ∧
    push 2 [JsonVal.num 1, JsonVal.num 2] (JsonVal.num 3) =
      [JsonVal.num 2, JsonVal.num 3] := by
  constructor
  · have h := ((sliding_window_fifo 2 (by decide)).1
      [JsonVal.num 1, JsonVal.num 2, JsonVal.num 3]).1
    simpa using h
  · exact (sliding_window_fifo 2 (by decide)).2 [JsonVal.num 1, JsonVal.num 2]
      (JsonVal.num 3) (by decide)

/-- On a full all-numeric window, `detect_stall` reaches the range
computation and returns the comparison against the threshold. -/
lemma detect_stall_full (N : ℕ) (T : ℚ) (h : ℚ) (t : List ℚ)
    (hfull : (h :: t).length = N) :
    detect_stall N T ((h :: t).map JsonVal.num) =
      some (decide (List.foldl max h t - List.foldl min h t ≤ T)) := by
  unfold detect_stall
  have hnlt : ¬ ((h :: t).map JsonVal.num).length < N := by
    simp only [List.length_map]
    omega
  rw [if_neg hnlt, toNums_map_num]

/-- C2: the Stall Detector returns true iff the window is full and
`max − min ≤ T_stall` (over a window of numeric readings, capacity `N`,
non-negative threshold), and for every window holding fewer than `N`
entries it returns false for every threshold. -/
theorem stall_detector_evaluate (N : ℕ) (T : ℚ) (l : List ℚ)
    (hN : 0 < N) (hlen : l.length ≤ N) (hT : 0 ≤ T) :
    (detect_stall N T (l.map JsonVal.num) = some true ↔
      l.length = N ∧
        ∃ h t, l = h :: t ∧ List.foldl max h t - List.foldl min h t ≤ T) ∧
    (∀ (T2 : ℚ) (w : List JsonVal), w.length < N →
      detect_stall N T2 w = some false) := by
  constructor
  · by_cases hfull : l.length = N
    · rcases l with _ | ⟨h, t⟩
      · exact absurd hfull (by simp only [List.length_nil]; omega)
      · rw [detect_stall_full N T h t hfull]
        constructor
        · intro hd
          exact ⟨hfull, h, t, rfl, of_decide_eq_true (Option.some.inj hd)⟩
        · rintro ⟨-, h1, t1, heq, hle⟩
          obtain ⟨rfl, rfl⟩ : h = h1 ∧ t = t1 := by
            injection heq with a b
            exact ⟨a, b⟩
          exact congrArg some (decide_eq_true hle)
    · have hlt : l.length < N := lt_of_le_of_ne hlen hfull
      simp [detect_stall, List.length_map, hlt, hfull]
  · intro T2 w hw
    simp [detect_stall, hw]

/-- Witness for C2: the full window [3, 4] with capacity 2 and threshold 1
is reported stalled (range 1 ≤ 1), and a one-entry window is never
stalled. -/
theorem stall_detector_evaluate_witness :
    detect_stall 2 1 ([3, 4].map JsonVal.num) = some true ∧
    detect_stall 2 1 [JsonVal.num 3] = some false := by
  constructor
  · exact (stall_detector_evaluate 2 1 [3, 4] (by norm_num) (by norm_num)
      (by norm_num)).1.mpr
      ⟨rfl, 3, [4], rfl, by norm_num [List.foldl, max_def, min_def]⟩
  · exact (stall_detector_evaluate 2 1 [3, 4] (by norm_num) (by norm_num)
      (by norm_num)).2 1 [JsonVal.num 3] (by norm_num)

/-- C8: on the concrete full window [100, 100.1, 99.9, 100.05, 100.0]
with capacity 5 the computed range `max − min` equals 0.2 exactly, so the
detector fires at threshold 0.2 and not at threshold 0.1.  (The rational
embedding is exact; under the program's IEEE-754 doubles the computed
range is 0.19999999999998863 and both comparison outcomes agree.) -/
theorem stall_range_concrete :
    List.foldl max (100 : ℚ) [100.1, 99.9, 100.05, 100.0] -
      List.foldl min (100 : ℚ) [100.1, 99.9, 100.05, 100.0] = 0.2 ∧
    detect_stall 5 0.2 ([100, 100.1, 99.9, 100.05, 100.0].map JsonVal.num) =
      some true ∧
    detect_stall 5 0.1 ([100, 100.1, 99.9, 100.05, 100.0].map JsonVal.num) =
      some false := by
  have hmax : List.foldl max (100 : ℚ) [100.1, 99.9, 100.05, 100.0] = 100.1 := by
    norm_num [List.foldl, max_def]
  have hmin : List.foldl min (100 : ℚ) [100.1, 99.9, 100.05, 100.0] = 99.9 := by
    norm_num [List.foldl, min_def]
  refine ⟨?_, ?_, ?_⟩
  · rw [hmax, hmin]
    norm_num
  · rw [detect_stall_full 5 0.2 100 [100.1, 99.9, 100.05, 100.0] rfl, hmax, hmin]
    simp only [Option.some.injEq, decide_eq_true_eq]
    norm_num
  · rw [detect_stall_full 5 0.1 100 [100.1, 99.9, 100.05, 100.0] rfl, hmax, hmin]
    simp only [Option.some.injEq, decide_eq_false_iff_not]
    norm_num

/-- C1: the hot-streak check performed on each message (the full-window
gate at the call site combined with `detect_hot_streak`) fires iff the
window is full and its mean is at least `T_hot`; on a non-empty but
not-full window it never fires, whatever the mean. -/
theorem hot_streak_evaluate (N : ℕ) (T : ℚ) (hN : 0 < N) :
    (∀ l : List ℚ, hot_streak_fires N T (l.map JsonVal.num) = true ↔
      l.length = N ∧ T ≤ l.sum / (l.length : ℚ)) ∧
    (∀ w : List JsonVal, w ≠ [] → w.length ≠ N →
      hot_streak_fires N T w = false) := by
  constructor
  · intro l
    rcases l with _ | ⟨h, t⟩
    · simp [hot_streak_fires, List.length_map, (Nat.ne_of_lt hN)]
    · simp [hot_streak_fires, detect_hot_streak, toNums, toNums_map_num]
  · intro w hne hlen
    simp [hot_streak_fires, beq_iff_eq, hlen]

/-- Witness for C1: with capacity 2 and threshold 3 the full window
[3, 5] (mean 4) fires, and the non-empty half-full window [100] does not
fire despite its large mean. -/
theorem hot_streak_evaluate_witness :
    hot_streak_fires 2 3 ([3, 5].map JsonVal.num) = true ∧
    hot_streak_fires 2 3 [JsonVal.num 100] = false := by
  constructor
  · exact ((hot_streak_evaluate 2 3 (by norm_num)).1 [3, 5]).mpr
      ⟨rfl, by norm_num⟩
  · exact (hot_streak_evaluate 2 3 (by norm_num)).2 [JsonVal.num 100]
      (by simp) (by norm_num)

/-- On a record that passes validation, the csv consumer's
`process_message` always appends the value to the rolling window,
whatever the detector or aggregation then do. -/
lemma csvProcessMessage_valid_window (N : ℕ) (T : ℚ) (r : CsvRecord)
    (s : CsvState) (v t : JsonVal) (h1 : r.temperature = some v)
    (h2 : r.timestamp = some t) :
    (csvProcessMessage N T r s).1.window = push N s.window v := by
  simp only [csvProcessMessage, h1, h2]
  rcases detect_stall N T (push N s.window v) with _ | b
  · rfl
  · rcases r.continent with _ | ck
    · rfl
    · cases htr : ck.truthy
      · simp only [htr]
        rfl
      · simp only [htr]
        rcases v with q | sv
        · rfl
        · rfl

/-- On a record that passes validation, the json consumer's
`process_message` always appends the value to the rolling window. -/
lemma jsonProcessMessage_valid_window (N : ℕ) (T : ℚ) (r : JsonRecord)
    (w : List JsonVal) (p v t : JsonVal) (h1 : r.player = some p)
    (h2 : r.ppg = some v) (h3 : r.timestamp = some t) :
    (jsonProcessMessage N T r w).1 = push N w v := by
  simp only [jsonProcessMessage, h1, h2, h3]
  by_cases hlen : (push N w v).length = N
  · simp only [hlen, if_true]
    rcases detect_hot_streak T (push N w v) with _ | b
    · rfl
    · cases b
      · rfl
      · rfl
  · simp [hlen]

/-- C4: in both consumers, a record whose numeric value or timestamp is
missing or null is rejected with an `Invalid` event and the state —
window contents and every keyed-aggregate entry — is returned exactly as
it was. -/
theorem validation_no_mutation :
    (∀ (N : ℕ) (T : ℚ) (r : CsvRecord) (s : CsvState),
      r.temperature = none ∨ r.timestamp = none →
        csvProcessMessage N T r s = (s, [Event.invalid])) ∧
    (∀ (N : ℕ) (T : ℚ) (r : JsonRecord) (w : List JsonVal),
      r.ppg = none ∨ r.timestamp = none →
        jsonProcessMessage N T r w = (w, [Event.invalid])) := by
  constructor
  · intro N T r s h
    rcases r with ⟨temp, ts, ci, co⟩
    cases temp <;> cases ts <;>
      first
        | rfl
        | (rcases h with h | h <;> simp at h)
  · intro N T r w h
    rcases r with ⟨p, tm, g, ts⟩
    cases p <;> cases g <;> cases ts <;>
      first
        | rfl
        | (rcases h with h | h <;> simp at h)

/-- Witness for C4: a csv record with a null temperature and a json
record with a null ppg are both rejected without touching the state. -/
theorem validation_no_mutation_witness :
    csvProcessMessage 5 0.2 ⟨none, some (JsonVal.str "t"), none, none⟩
        ⟨[], fun _ => (0, 0)⟩
      = (⟨[], fun _ => (0, 0)⟩, [Event.invalid]) ∧
    jsonProcessMessage 5 20
        ⟨some (JsonVal.str "p"), none, none, some (JsonVal.str "t")⟩ []
      = ([], [Event.invalid]) := by
  constructor
  · exact validation_no_mutation.1 5 0.2 _ _ (Or.inl rfl)
  · exact validation_no_mutation.2 5 20 _ _ (Or.inl rfl)

/-- C5 counterexample: a json-consumer record carrying a numeric value
(`ppg = 22`) and a timestamp but no `player` field is rejected as
`Invalid` and nothing is pushed into the window, so acceptance requires
a field beyond the numeric value, the timestamp and the optional
grouping key. -/
theorem dispatcher_required_fields_counterexample :
    (JsonRecord.mk none none (some (JsonVal.num 22))
        (some (JsonVal.str "t"))).ppg = some (JsonVal.num 22) ∧
    (JsonRecord.mk none none (some (JsonVal.num 22))
        (some (JsonVal.str "t"))).timestamp = some (JsonVal.str "t") ∧
    jsonProcessMessage 5 20
        (JsonRecord.mk none none (some (JsonVal.num 22))
          (some (JsonVal.str "t"))) []
      = ([], [Event.invalid]) ∧
    push 5 ([] : List JsonVal) (JsonVal.num 22) ≠ [] := by
  refine ⟨rfl, rfl, rfl, ?_⟩
  simp [push]

/-- C5 amended: the csv consumer accepts (pushes into the window) every
record with a numeric value and a timestamp present; the json consumer
additionally requires the `player` field — it accepts every record with
`player`, value and timestamp present and rejects any record lacking
`player` as `Invalid` — and no further field is required by either. -/
theorem dispatcher_required_fields_amended :
    (∀ (N : ℕ) (T : ℚ) (r : CsvRecord) (s : CsvState) (v t : JsonVal),
      r.temperature = some v → r.timestamp = some t →
        (csvProcessMessage N T r s).1.window = push N s.window v) ∧
    (∀ (N : ℕ) (T : ℚ) (r : JsonRecord) (w : List JsonVal) (p v t : JsonVal),
      r.player = some p → r.ppg = some v → r.timestamp = some t →
        (jsonProcessMessage N T r w).1 = push N w v) ∧
    (∀ (N : ℕ) (T : ℚ) (r : JsonRecord) (w : List JsonVal),
      r.player = none → jsonProcessMessage N T r w = (w, [Event.invalid])) := by
  refine ⟨fun N T r s v t h1 h2 => csvProcessMessage_valid_window N T r s v t h1 h2,
    fun N T r w p v t h1 h2 h3 =>
      jsonProcessMessage_valid_window N T r w p v t h1 h2 h3,
    fun N T r w h1 => ?_⟩
  simp only [jsonProcessMessage, h1]

/-- Witness for the amended C5: both consumers push the value `7` of a
fully-populated record, and the json consumer rejects a player-less
record. -/
theorem dispatcher_required_fields_amended_witness :
    (csvProcessMessage 5 0.2
        ⟨some (JsonVal.num 7), some (JsonVal.str "t"), none, none⟩
        ⟨[], fun _ => (0, 0)⟩).1.window = push 5 [] (JsonVal.num 7) ∧
    (jsonProcessMessage 5 20
        ⟨some (JsonVal.str "p"), none, some (JsonVal.num 7),
          some (JsonVal.str "t")⟩ []).1 = push 5 [] (JsonVal.num 7) ∧
    jsonProcessMessage 5 20 ⟨none, none, some (JsonVal.num 7),
        some (JsonVal.str "t")⟩ [] = ([], [Event.invalid]) := by
  refine ⟨?_, ?_, ?_⟩
  · exact dispatcher_required_fields_amended.1 5 0.2 _ _ (JsonVal.num 7)
      (JsonVal.str "t") rfl rfl
  · exact dispatcher_required_fields_amended.2.1 5 20 _ _ (JsonVal.str "p")
      (JsonVal.num 7) (JsonVal.str "t") rfl rfl rfl
  · exact dispatcher_required_fields_amended.2.2 5 20 _ _ rfl

/-- C6: `record(key, value)` increments the count and adds the value to
the sum at `key` (an unseen key starting from the default `count = 0`,
`sum = 0`), leaves every other key untouched, and from an empty
aggregator `record("Asia", 100)` then `record("Asia", 110)` yields
count 2 and average `210 / 2 = 105`. -/
theorem aggregator_record_contract (stats : JsonVal → ℕ × ℚ) (key : JsonVal)
    (v : ℚ) :
    aggRecord stats key v key = ((stats key).1 + 1, (stats key).2 + v) ∧
    (∀ k, k ≠ key → aggRecord stats key v k = stats k) ∧
    (aggRecord (aggRecord (fun _ => (0, 0)) (JsonVal.str "Asia") 100)
        (JsonVal.str "Asia") 110 (JsonVal.str "Asia")).1 = 2 ∧
    aggAverage (aggRecord (aggRecord (fun _ => (0, 0)) (JsonVal.str "Asia") 100)
        (JsonVal.str "Asia") 110) (JsonVal.str "Asia") = 105 := by
  refine ⟨by simp [aggRecord], fun k hk => by simp [aggRecord, hk], ?_, ?_⟩
  · simp [aggRecord]
  · norm_num [aggRecord, aggAverage]

/-- Witness for C6: one `record` call on an empty aggregator yields the
entry `(1, 100)` at the recorded key and leaves another key at the
default. -/
theorem aggregator_record_contract_witness :
    aggRecord (fun _ => (0, 0)) (JsonVal.str "Asia") 100 (JsonVal.str "Asia")
      = (1, 100) ∧
    aggRecord (fun _ => (0, 0)) (JsonVal.str "Asia") 100 (JsonVal.str "Europe")
      = (0, 0) := by
  constructor
  · have h := (aggregator_record_contract (fun _ => (0, 0))
      (JsonVal.str "Asia") 100).1
    simpa using h
  · exact (aggregator_record_contract (fun _ => (0, 0))
      (JsonVal.str "Asia") 100).2.1 (JsonVal.str "Europe") (by simp)

/-- C7: on every processed valid record the alert is emitted exactly when
the detector condition holds of the current just-updated window — so
emission repeats at every step where the condition holds and stops the
moment it ceases, the check being a function of the window contents
alone (no sticky triggered state exists in either consumer). -/
theorem detector_emission_not_sticky (N : ℕ) (T : ℚ) :
    (∀ (r : CsvRecord) (s : CsvState) (v t : JsonVal),
      r.temperature = some v → r.timestamp = some t →
        (Event.stallDetected ∈ (csvProcessMessage N T r s).2 ↔
          detect_stall N T (push N s.window v) = some true)) ∧
    (∀ (r : JsonRecord) (w : List JsonVal) (p v t : JsonVal),
      r.player = some p → r.ppg = some v → r.timestamp = some t →
        (Event.hotStreakDetected ∈ (jsonProcessMessage N T r w).2 ↔
          hot_streak_fires N T (push N w v) = true)) := by
  constructor
  · intro r s v t h1 h2
    simp only [csvProcessMessage, h1, h2]
    rcases detect_stall N T (push N s.window v) with _ | b
    · simp
    · rcases r.continent with _ | ck
      · cases b <;> simp
      · cases htr : ck.truthy
        · cases b <;> simp [htr]
        · rcases v with q | sv
          · cases b <;> simp [htr]
          · cases b <;> simp [htr]
  · intro r w p v t h1 h2 h3
    simp only [jsonProcessMessage, h1, h2, h3]
    by_cases hlen : (push N w v).length = N
    · simp only [hlen, if_true]
      rcases hd : detect_hot_streak T (push N w v) with _ | b
      · simp [hot_streak_fires, hlen, hd]
      · cases b <;> simp [hot_streak_fires, hlen, hd]
    · simp [hlen, hot_streak_fires]

/-- Witness for C7: with capacity 1, a single valid reading makes the
stall alert fire in the csv consumer (range 0 ≤ threshold) and the
hot-streak alert fire in the json consumer (mean 5 ≥ 3). -/
theorem detector_emission_not_sticky_witness :
    Event.stallDetected ∈ (csvProcessMessage 1 1
        ⟨some (JsonVal.num 5), some (JsonVal.str "t"), none, none⟩
        ⟨[], fun _ => (0, 0)⟩).2 ∧
    Event.hotStreakDetected ∈ (jsonProcessMessage 1 3
        ⟨some (JsonVal.str "p"), none, some (JsonVal.num 5),
          some (JsonVal.str "t")⟩ []).2 := by
  constructor
  · exact ((detector_emission_not_sticky 1 1).1 _ _ (JsonVal.num 5)
      (JsonVal.str "t") rfl rfl).mpr
      (by norm_num [push, detect_stall, toNums, List.foldl])
  · exact ((detector_emission_not_sticky 1 3).2 _ _ (JsonVal.str "p")
      (JsonVal.num 5) (JsonVal.str "t") rfl rfl rfl).mpr
      (by norm_num [push, hot_streak_fires, detect_hot_streak, toNums])

/-- C9 counterexample: a json-consumer record whose value field holds the
string "x" alongside a timestamp — but with no `player` — does not pass
validation: it is rejected as `Invalid` and nothing is pushed, against
the claim that every such record is pushed into the window. -/
theorem nonnull_validation_counterexample :
    (JsonRecord.mk none none (some (JsonVal.str "x"))
        (some (JsonVal.str "t"))).ppg ≠ none ∧
    jsonProcessMessage 5 20
        (JsonRecord.mk none none (some (JsonVal.str "x"))
          (some (JsonVal.str "t"))) [] = ([], [Event.invalid]) ∧
    push 5 ([] : List JsonVal) (JsonVal.str "x") ≠ [] := by
  refine ⟨by simp, rfl, by simp [push]⟩

/-- C9 amended: validation only checks the value field for null, not for
being numeric — provided the consumer's other required fields are present
(the json consumer also requires `player`), a record whose value is a
string passes validation and that string is pushed into the window, and
any later detection pass over a window containing it fails with a raised
exception, after the window has already been mutated. -/
theorem nonnull_validation_amended :
    (∀ (N : ℕ) (T : ℚ) (r : CsvRecord) (s : CsvState) (sv : String)
        (t : JsonVal),
      r.temperature = some (JsonVal.str sv) → r.timestamp = some t →
        (csvProcessMessage N T r s).1.window = push N s.window (JsonVal.str sv)) ∧
    (∀ (N : ℕ) (T : ℚ) (r : JsonRecord) (w : List JsonVal) (p : JsonVal)
        (sv : String) (t : JsonVal),
      r.player = some p → r.ppg = some (JsonVal.str sv) →
        r.timestamp = some t →
        (jsonProcessMessage N T r w).1 = push N w (JsonVal.str sv)) ∧
    (∀ (N : ℕ) (T : ℚ) (w : List JsonVal) (sv : String),
      N ≤ w.length → JsonVal.str sv ∈ w → detect_stall N T w = none) ∧
    (∀ (T : ℚ) (w : List JsonVal) (sv : String),
      JsonVal.str sv ∈ w → detect_hot_streak T w = none) := by
  refine ⟨fun N T r s sv t h1 h2 =>
      csvProcessMessage_valid_window N T r s (JsonVal.str sv) t h1 h2,
    fun N T r w p sv t h1 h2 h3 =>
      jsonProcessMessage_valid_window N T r w p (JsonVal.str sv) t h1 h2 h3,
    fun N T w sv hlen hm => ?_, fun T w sv hm => ?_⟩
  · unfold detect_stall
    rw [if_neg (by omega), toNums_eq_none_of_mem_str w sv hm]
  · unfold detect_hot_streak
    have hne : w.isEmpty = false := by
      cases w
      · cases hm
      · rfl
    rw [if_neg (by simp [hne]), toNums_eq_none_of_mem_str w sv hm]

/-- Witness for the amended C9: the csv consumer pushes the string "x"
into the window, and the stall detector on the resulting full window
raises instead of returning a boolean. -/
theorem nonnull_validation_amended_witness :
    (csvProcessMessage 1 0.2
        ⟨some (JsonVal.str "x"), some (JsonVal.str "t"), none, none⟩
        ⟨[], fun _ => (0, 0)⟩).1.window = push 1 [] (JsonVal.str "x") ∧
    detect_stall 1 0.2 [JsonVal.str "x"] = none := by
  constructor
  · exact nonnull_validation_amended.1 1 0.2 _ _ "x" (JsonVal.str "t") rfl rfl
  · exact nonnull_validation_amended.2.2.1 1 0.2 [JsonVal.str "x"] "x"
      (by simp) (by simp)

/-- C10: the aggregation path increments the per-key count before the
average is computed, so every `continentAvg` event carries a divisor
count that is exactly the previous count plus one and hence at least 1 —
the divide-by-zero case of the average is unreachable. -/
theorem aggregation_divisor_positive :
    (∀ (stats : JsonVal → ℕ × ℚ) (key : JsonVal) (v : ℚ),
      (aggRecord stats key v key).1 = (stats key).1 + 1) ∧
    (∀ (N : ℕ) (T : ℚ) (r : CsvRecord) (s : CsvState) (avg : ℚ) (c : ℕ),
      Event.continentAvg avg c ∈ (csvProcessMessage N T r s).2 → 0 < c) := by
  constructor
  · intro stats key v
    simp [aggRecord]
  · intro N T r s avg c
    rcases ht : r.temperature with _ | v
    · simp [csvProcessMessage, ht]
    · rcases hts : r.timestamp with _ | t
      · simp [csvProcessMessage, ht, hts]
      · simp only [csvProcessMessage, ht, hts]
        rcases detect_stall N T (push N s.window v) with _ | b
        · simp
        · rcases r.continent with _ | ck
          · cases b <;> simp
          · cases htr : ck.truthy
            · simp only [htr]
              cases b <;> simp
            · simp only [htr]
              rcases v with q | sv
              · cases b <;> intro hmem <;> simp [aggRecord] at hmem <;>
                  omega
              · cases b <;> simp

/-- Witness for C10: processing one keyed reading from the empty state
logs the continent average with divisor count 1, which is positive. -/
theorem aggregation_divisor_positive_witness :
    Event.continentAvg 100 1 ∈ (csvProcessMessage 5 0.2
        ⟨some (JsonVal.num 100), some (JsonVal.str "t"), none,
          some (JsonVal.str "Asia")⟩ ⟨[], fun _ => (0, 0)⟩).2 ∧
    0 < 1 := by
  have hmem : Event.continentAvg 100 1 ∈ (csvProcessMessage 5 0.2
      ⟨some (JsonVal.num 100), some (JsonVal.str "t"), none,
        some (JsonVal.str "Asia")⟩ ⟨[], fun _ => (0, 0)⟩).2 := by
    norm_num [csvProcessMessage, push, detect_stall, toNums, aggRecord,
      aggAverage, JsonVal.truthy]
    rw [if_neg (by decide : ¬ ("Asia" = ""))]
    simp
  exact ⟨hmem, aggregation_divisor_positive.2 5 0.2
    ⟨some (JsonVal.num 100), some (JsonVal.str "t"), none,
      some (JsonVal.str "Asia")⟩ ⟨[], fun _ => (0, 0)⟩ 100 1 hmem⟩
